import Mathlib

/- Verification of the trait-union code generator (`trait_union!`).

The generator emits, for each specification, a container struct holding an
untagged union of the declared variants together with a captured vtable handle
(`VtableContainer(NonNull<()>)`), a `new` constructor, `Deref`/`DerefMut`
through a reconstructed fat pointer, a `Drop` impl dispatching the destructor
through the captured vtable, an unsafe per-container `Variant` marker trait
with one impl per declared variant, and unconditional `Send`/`Sync` impls for
the vtable handle type.

This file shallowly embeds both levels:
  - the runtime semantics of the emitted code (construction, access, drop) over
    a platform model of vtables and fat pointers, and
  - the compiler `handle_request` itself (name mangling, implicit `'static`
    lifetime, emitted items) together with the batch driver `trait_union` and
    the `repr(C)`/default struct layout of the emitted types. -/

namespace TraitUnion

/-- Interface (trait) signature: method identifiers with argument and result types. -/
structure Interface where
  Method : Type
  Arg : Type
  Res : Type

/-- Platform model: the concrete types implementing the interface, their method
implementations (the contents of each type's dispatch table), the address at
which the compiler places each type's vtable (non-null, since it is the address
of a static read-only table), and the reading of a vtable address back to the
type whose table lives there (used by the destructor slot). -/
structure Platform (I : Interface) where
  Ty : Type
  Val : Ty → Type
  call : (τ : Ty) → I.Method → I.Arg → Val τ → I.Res
  mutate : (τ : Ty) → I.Method → I.Arg → Val τ → Val τ
  vtableAddr : Ty → Nat
  tyOfVtable : Nat → Option Ty
  vtable_pos : ∀ τ, 0 < vtableAddr τ
  vtable_spec : ∀ τ, tyOfVtable (vtableAddr τ) = some τ

/-- Typed byte pattern: a concrete type together with one of its values. The
type component remembers what the bytes really are, so that interpreting them
through the wrong dispatch table can be modelled as undefined. -/
def DynVal {I : Interface} (P : Platform I) : Type := (τ : P.Ty) × P.Val τ

/-- Fat pointer `&dyn Trait`: the platform representation, a data address paired
with a vtable address. -/
structure DynRef where
  data : Nat
  vtable : Nat
  deriving DecidableEq

/-- The emitted `#[repr(C)] struct __trait_union_*_TraitObject` with fields
`data: *mut ()` and `vtable: *mut ()`. -/
structure TraitObject where
  data : Nat
  vtable : Nat
  deriving DecidableEq

/-- Coercion `&value as &(dyn Trait)` in the emitted `new`: the compiler builds
the fat pointer from the value's address and the vtable of its static type. -/
def mkDynRef {I : Interface} (P : Platform I) (τ : P.Ty) (addr : Nat) : DynRef :=
  ⟨addr, P.vtableAddr τ⟩

/-- The `transmute` from `&dyn Trait` to `TraitObject` in the emitted `new`: on
one platform both sides are the same two pointer-sized words (`TraitObject` is
`repr(C)`), so the transmute is the identity on the pair. -/
def eraseRef (r : DynRef) : TraitObject :=
  ⟨r.data, r.vtable⟩

/-- The `transmute` from `TraitObject` back to `&dyn Trait` (or `&mut dyn Trait`)
in the emitted `deref`, `deref_mut` and `drop`. -/
def unerase (t : TraitObject) : DynRef :=
  ⟨t.data, t.vtable⟩

/-- Invoke an interface method through a fat pointer: read the bytes at the data
address and call the method slot of the table at the vtable address. The call is
defined (and equal to the stored type's own implementation) exactly when that
table is the stored type's own table; interpreting the bytes through any other
table is undefined (`none`). -/
def dispatch {I : Interface} (P : Platform I) (h : Nat → Option (DynVal P))
    (r : DynRef) (m : I.Method) (a : I.Arg) : Option I.Res :=
  match h r.data with
  | none => none
  | some dv => if P.vtableAddr dv.fst = r.vtable then some (P.call dv.fst m a dv.snd) else none

/-- Mutating method invocation through a fat pointer (the `&mut dyn Trait` path):
same definedness condition as `dispatch`; returns the updated bytes written back
at the data address. -/
def dispatchMut {I : Interface} (P : Platform I) (h : Nat → Option (DynVal P))
    (r : DynRef) (m : I.Method) (a : I.Arg) : Option (DynVal P) :=
  match h r.data with
  | none => none
  | some dv =>
    if P.vtableAddr dv.fst = r.vtable then some ⟨dv.fst, P.mutate dv.fst m a dv.snd⟩ else none

/-- The generated container struct: the union storage (bytes of the one active
variant, with no discriminant of its own) and the captured vtable handle
(`VtableContainer(NonNull<()>)`). -/
structure Container {I : Interface} (P : Platform I) where
  data : DynVal P
  vtable : Nat

/-- Micro-state during the generated `new`: the `value` parameter (alive until
moved out of), and the two fields of the `MaybeUninit` container. -/
structure NewState {I : Interface} (P : Platform I) where
  src : Option (DynVal P)
  storage : Option (DynVal P)
  handle : Option Nat

/-- Micro-events of the generated `new`, in program order. -/
inductive NewEvent where
  | captureVtable (vt : Nat)
  | moveIntoStorage
  | writeHandle
  deriving DecidableEq

/-- The vtable-capture block of the emitted `new`: coerce `&value` to a fat
pointer, transmute it to `TraitObject`, and keep its `vtable` field. Reads the
source value, so it is only defined while the source has not been moved out
(`none` models a read of a moved-from local). The stack address of `value` is
irrelevant to the captured table; it is taken to be `0` here. -/
def captureStep {I : Interface} {P : Platform I} (s : NewState P) : Option Nat :=
  s.src.map fun dv => (eraseRef (mkDynRef P dv.fst 0)).vtable

/-- The `core::ptr::write(&mut (*slf).data, value)` of the emitted `new`: moves
the source's bytes into the union storage. -/
def moveStep {I : Interface} {P : Platform I} (s : NewState P) : NewState P :=
  { s with storage := s.src, src := none }

/-- The store of the captured handle into the container's vtable field
(`(*slf).vtable = VtableContainer(NonNull::new_unchecked(vtable))`). -/
def writeHandleStep {I : Interface} {P : Platform I} (vt : Nat) (s : NewState P) : NewState P :=
  { s with handle := some vt }

/-- Micro-trace of the generated `new`: capture the vtable from the original,
still-live value, then move the bytes into storage, then store the handle. -/
def newExec {I : Interface} (P : Platform I) (τ : P.Ty) (v : P.Val τ) :
    List NewEvent × NewState P :=
  let s0 : NewState P := ⟨some ⟨τ, v⟩, none, none⟩
  match captureStep s0 with
  | none => ([], s0)
  | some vt =>
    ([NewEvent.captureVtable vt, NewEvent.moveIntoStorage, NewEvent.writeHandle],
      writeHandleStep vt (moveStep s0))

/-- The generated `fn new(value: impl Variant) -> Self`, summarised: the
container assembled by `assume_init` after the micro-steps of `newExec`. -/
def Container.new {I : Interface} (P : Platform I) (τ : P.Ty) (v : P.Val τ) : Container P :=
  { data := ⟨τ, v⟩, vtable := P.vtableAddr τ }

/-- The generated helper `to_trait_object`: pairs the address of the container's
union storage (`&x.data as *const _ as *mut _`, here the container's placement
address `base`) with the stored handle (`x.vtable.0.as_ptr()`). -/
def to_trait_object {I : Interface} {P : Platform I} (base : Nat) (c : Container P) :
    TraitObject :=
  ⟨base, c.vtable⟩

/-- Memory as seen through a container placed at address `base`: the bytes at
`base` are the active value's, nothing else is readable through it. -/
def containerHeap {I : Interface} {P : Platform I} (base : Nat) (c : Container P) :
    Nat → Option (DynVal P) :=
  fun a => if a = base then some c.data else none

/-- The generated `Deref::deref` followed by an interface method call:
`transmute(to_trait_object(self))` and dispatch through the captured vtable. -/
def Container.access {I : Interface} {P : Platform I} (base : Nat) (c : Container P)
    (m : I.Method) (a : I.Arg) : Option I.Res :=
  dispatch P (containerHeap base c) (unerase (to_trait_object base c)) m a

/-- The generated `DerefMut::deref_mut` followed by a mutating interface method
call: the updated bytes are written back into the container's storage. -/
def Container.accessMut {I : Interface} {P : Platform I} (base : Nat) (c : Container P)
    (m : I.Method) (a : I.Arg) : Option (Container P) :=
  (dispatchMut P (containerHeap base c) (unerase (to_trait_object base c)) m a).map
    fun dv => { c with data := dv }

/-- Observable events of a container's life. -/
inductive Event {I : Interface} (P : Platform I) where
  | methodCall (τ : P.Ty)
  | dropInvoked (τ : P.Ty)

/-- The generated `Drop::drop`: rebuild the fat pointer with `to_trait_object`,
transmute it back to `&mut dyn Trait`, and `drop_in_place` it — one invocation
of the destructor slot reachable from the captured dispatch table. Which
destructor runs is determined by the table at the captured vtable address. -/
def Container.dropRun {I : Interface} {P : Platform I} (c : Container P) : List (Event P) :=
  match P.tyOfVtable c.vtable with
  | none => []
  | some τ => [Event.dropInvoked τ]

/-- Direct (un-erased) behaviour of a value `v : τ` viewed through the interface:
just the type's own method implementation applied to it. -/
def directCall {I : Interface} (P : Platform I) (τ : P.Ty) (v : P.Val τ)
    (m : I.Method) (a : I.Arg) : I.Res :=
  P.call τ m a v

/-- C1. Round-trip erase/unerase identity: `unerase (eraseRef r)` is `r` itself
(the two transmutes cancel on the platform pair representation), and a container
built from `v` exposes, through `access`/`access_mut` (Deref + dispatch through
the captured table), exactly the behaviour of `v` viewed through the interface
directly: every method call returns `directCall`'s result, and every mutating
call leaves the container holding exactly the directly-mutated value. -/
theorem C1_round_trip_identity {I : Interface} (P : Platform I) :
    (∀ r : DynRef, unerase (eraseRef r) = r) ∧
    (∀ (τ : P.Ty) (v : P.Val τ) (base : Nat) (m : I.Method) (a : I.Arg),
      Container.access base (Container.new P τ v) m a = some (directCall P τ v m a)) ∧
    (∀ (τ : P.Ty) (v : P.Val τ) (base : Nat) (m : I.Method) (a : I.Arg),
      Container.accessMut base (Container.new P τ v) m a
        = some (Container.new P τ (P.mutate τ m a v))) := by
  refine ⟨fun r => rfl, ?_, ?_⟩ <;>
    · intro τ v base m a
      simp [Container.access, Container.accessMut, Container.new, dispatch, dispatchMut,
        containerHeap, unerase, to_trait_object, eraseRef, directCall]

/-- Interface operations a caller can perform on a live container between its
construction and its drop. -/
inductive Op (I : Interface) where
  | access (m : I.Method) (a : I.Arg)
  | accessMut (m : I.Method) (a : I.Arg)

/-- Run one caller operation on a container placed at `base`: a shared access
leaves the container unchanged, a mutable access writes the updated bytes back.
Each defined call is recorded as a `methodCall` event; an undefined call (never
reachable from `new`) is recorded as no event. -/
def stepOp {I : Interface} {P : Platform I} (base : Nat) (c : Container P) :
    Op I → Container P × List (Event P)
  | Op.access m a =>
    match Container.access base c m a with
    | none => (c, [])
    | some _ => (c, [Event.methodCall c.data.fst])
  | Op.accessMut m a =>
    match Container.accessMut base c m a with
    | none => (c, [])
    | some c' => (c', [Event.methodCall c.data.fst])

/-- Run a sequence of caller operations, collecting the emitted events. -/
def runOps {I : Interface} {P : Platform I} (base : Nat) (c : Container P) :
    List (Op I) → Container P × List (Event P)
  | [] => (c, [])
  | op :: ops =>
    ((runOps base (stepOp base c op).1 ops).1,
      (stepOp base c op).2 ++ (runOps base (stepOp base c op).1 ops).2)

/-- Whole-life scenario: construct a container from `v`, perform the caller's
operations, then drop the container when it goes out of scope. -/
def runScenario {I : Interface} (P : Platform I) (base : Nat) (τ : P.Ty) (v : P.Val τ)
    (ops : List (Op I)) : List (Event P) :=
  (runOps base (Container.new P τ v) ops).2 ++
    (runOps base (Container.new P τ v) ops).1.dropRun

/-- Recogniser for destructor-invocation events. -/
def isDropEvent {I : Interface} {P : Platform I} : Event P → Bool
  | Event.dropInvoked _ => true
  | Event.methodCall _ => false

theorem stepOp_spec {I : Interface} {P : Platform I} (base : Nat) (τ : P.Ty)
    (c : Container P) (hd : c.data.fst = τ) (hv : c.vtable = P.vtableAddr τ) (op : Op I) :
    ((stepOp base c op).1.data.fst = τ ∧ (stepOp base c op).1.vtable = P.vtableAddr τ) ∧
      ∀ e ∈ (stepOp base c op).2, e = Event.methodCall τ := by
  obtain ⟨⟨τ0, v0⟩, vt⟩ := c
  simp only at hd hv
  subst hd hv
  cases op <;>
    simp [stepOp, Container.access, Container.accessMut, dispatch, dispatchMut,
      containerHeap, unerase, to_trait_object]

theorem runOps_spec {I : Interface} {P : Platform I} (base : Nat) (τ : P.Ty)
    (ops : List (Op I)) : ∀ (c : Container P), c.data.fst = τ → c.vtable = P.vtableAddr τ →
    ((runOps base c ops).1.data.fst = τ ∧ (runOps base c ops).1.vtable = P.vtableAddr τ) ∧
      ∀ e ∈ (runOps base c ops).2, e = Event.methodCall τ := by
  induction ops with
  | nil =>
    intro c hd hv
    exact ⟨⟨hd, hv⟩, by simp [runOps]⟩
  | cons op ops ih =>
    intro c hd hv
    obtain ⟨⟨h1, h2⟩, h3⟩ := stepOp_spec base τ c hd hv op
    obtain ⟨⟨g1, g2⟩, g3⟩ := ih (stepOp base c op).1 h1 h2
    refine ⟨⟨g1, g2⟩, ?_⟩
    intro e he
    simp only [runOps, List.mem_append] at he
    rcases he with he | he
    · exact h3 e he
    · exact g3 e he

/-- C6. Construction ordering: the micro-trace of the generated `new` is the
capture of the dispatch table, strictly followed by the move of the value's
bytes into the inline union storage, followed by the handle store — and nothing
else. The capture reads the original, still-valid value (it would be undefined
after the move, third conjunct), and the captured table is the value's own
(`vtableAddr τ`). After construction the container owns exactly the one moved
value paired with that handle. -/
theorem C6_construction_ordering {I : Interface} (P : Platform I) (τ : P.Ty) (v : P.Val τ) :
    (newExec P τ v).1 = [NewEvent.captureVtable (P.vtableAddr τ), NewEvent.moveIntoStorage,
      NewEvent.writeHandle] ∧
    captureStep (⟨some ⟨τ, v⟩, none, none⟩ : NewState P) = some (P.vtableAddr τ) ∧
    captureStep (moveStep (⟨some ⟨τ, v⟩, none, none⟩ : NewState P)) = none ∧
    (newExec P τ v).2.storage = some ⟨τ, v⟩ ∧
    (newExec P τ v).2.handle = some (P.vtableAddr τ) ∧
    Container.new P τ v = ⟨⟨τ, v⟩, P.vtableAddr τ⟩ := by
  refine ⟨?_, ?_, ?_, ?_, ?_, rfl⟩ <;>
    simp [newExec, captureStep, moveStep, writeHandleStep, mkDynRef, eraseRef]

/-- C3. Destructor exactly-once: over any whole-life scenario (construction from
`v : τ`, any sequence of `access`/`access_mut` uses, then drop), exactly one
destructor invocation occurs; it is the active variant's destructor, reached
through the destructor slot of the captured dispatch table; and it is the very
last event of the scenario — in particular no earlier than the last use of
`access`/`access_mut`. -/
theorem C3_destructor_exactly_once {I : Interface} (P : Platform I) (base : Nat)
    (τ : P.Ty) (v : P.Val τ) (ops : List (Op I)) :
    (runScenario P base τ v ops).countP isDropEvent = 1 ∧
    (runScenario P base τ v ops).getLast? = some (Event.dropInvoked τ) := by
  obtain ⟨⟨h1, h2⟩, h3⟩ :=
    runOps_spec (P := P) base τ ops (Container.new P τ v) rfl rfl
  have hdrop : (runOps base (Container.new P τ v) ops).1.dropRun
      = [Event.dropInvoked τ] := by
    unfold Container.dropRun
    rw [h2, P.vtable_spec]
  have hcount : (runOps base (Container.new P τ v) ops).2.countP isDropEvent = 0 := by
    rw [List.countP_eq_zero]
    intro e he
    rw [h3 e he]
    simp [isDropEvent]
  constructor
  · rw [runScenario, List.countP_append, hcount, hdrop]
    rfl
  · rw [runScenario, hdrop, List.getLast?_concat]

/-- Well-formedness invariant established by `new` and preserved by every
operation: the captured handle is the active variant's own vtable address. -/
def WF {I : Interface} {P : Platform I} (c : Container P) : Prop :=
  c.vtable = P.vtableAddr c.data.fst

/-- C5. Totality of the runtime path: `new` always succeeds and establishes the
well-formedness invariant; on any well-formed container, `access` always returns
a result, `access_mut` always returns an updated, still well-formed container,
and drop always reaches the destructor invocation — none of the four operations
has a failing branch or error path at run time. -/
theorem C5_total_runtime_path {I : Interface} (P : Platform I) :
    (∀ (τ : P.Ty) (v : P.Val τ), WF (Container.new P τ v)) ∧
    (∀ (c : Container P), WF c → ∀ (base : Nat) (m : I.Method) (a : I.Arg),
      (Container.access base c m a).isSome = true ∧
      (∃ c', Container.accessMut base c m a = some c' ∧ WF c') ∧
      c.dropRun = [Event.dropInvoked c.data.fst]) := by
  constructor
  · intro τ v
    rfl
  · intro c hwf base m a
    obtain ⟨⟨τ0, v0⟩, vt⟩ := c
    have hv : vt = P.vtableAddr τ0 := hwf
    subst hv
    refine ⟨?_, ?_, ?_⟩
    · simp [Container.access, dispatch, containerHeap, unerase, to_trait_object]
    · refine ⟨{ data := ⟨τ0, P.mutate τ0 m a v0⟩, vtable := P.vtableAddr τ0 }, ?_, rfl⟩
      simp [Container.accessMut, dispatchMut, containerHeap, unerase, to_trait_object]
    · unfold Container.dropRun
      simp [P.vtable_spec]

/-- Concrete single-method interface (one `len`-like method) used to evaluate
the verified operations on closed inputs. -/
@[reducible] def lenI : Interface := ⟨Unit, Unit, Nat⟩

/-- Two concrete implementing types, mirroring the repository's test variants
`u8` (len is the value) and the zero-sized `X`. -/
inductive ExTy where
  | tU8
  | tX
  deriving DecidableEq

/-- Value representations of the example types. -/
@[reducible] def exVal : ExTy → Type
  | ExTy.tU8 => Nat
  | ExTy.tX => Unit

/-- Concrete platform instance: vtables for the two example types live at the
non-null addresses 1 and 2. -/
@[reducible] def exP : Platform lenI where
  Ty := ExTy
  Val := exVal
  call := fun τ => match τ with
    | ExTy.tU8 => fun _ _ n => n
    | ExTy.tX => fun _ _ _ => 0
  mutate := fun τ => match τ with
    | ExTy.tU8 => fun _ _ n => n + 1
    | ExTy.tX => fun _ _ v => v
  vtableAddr := fun τ => match τ with
    | ExTy.tU8 => 1
    | ExTy.tX => 2
  tyOfVtable := fun a => if a = 1 then some ExTy.tU8 else if a = 2 then some ExTy.tX else none
  vtable_pos := by intro τ; cases τ <;> decide
  vtable_spec := by intro τ; cases τ <;> rfl

/-- Closed witness for C5 at a concrete container: `access` on a freshly built
container holding the `u8`-like value 5 is defined. -/
theorem C5_total_runtime_path_witness :
    (Container.access 0 (Container.new exP ExTy.tU8 5) () ()).isSome = true :=
  ((C5_total_runtime_path exP).2 (Container.new exP ExTy.tU8 5) rfl 0 () ()).1

/-- Round `n` up to the next multiple of the positive alignment `a` (layout
padding). -/
def alignUp (n a : Nat) : Nat := (n + a - 1) / a * a

/-- Size and alignment of a Rust type. -/
structure Layout where
  size : Nat
  align : Nat
  deriving DecidableEq

/-- Largest size among the declared variants. -/
def maxSize (vs : List Layout) : Nat := vs.foldr (fun l m => max l.size m) 0

/-- Largest alignment among the declared variants (alignments are at least 1). -/
def maxAlign (vs : List Layout) : Nat := vs.foldr (fun l m => max l.align m) 1

/-- Layout of the emitted `#[repr(C)] union` whose fields are the
`ManuallyDrop<Vi>` (transparent over `Vi`): alignment is the maximum field
alignment, size is the maximum field size rounded up to that alignment. -/
def unionLayout (vs : List Layout) : Layout :=
  ⟨alignUp (maxSize vs) (maxAlign vs), maxAlign vs⟩

/-- Layout of the handle field `VtableContainer(NonNull<()>)`: one pointer of
size and alignment `pw`. -/
def ptrLayout (pw : Nat) : Layout := ⟨pw, pw⟩

/-- Default-representation layout of the emitted two-field struct: the compiler
places the higher-aligned field first, pads the second field to its alignment,
and pads the total to the struct alignment, which is the maximum of the field
alignments. -/
def structLayout2 (a b : Layout) : Layout :=
  let f1 := if a.align < b.align then b else a
  let f2 := if a.align < b.align then a else b
  ⟨alignUp (alignUp f1.size f2.align + f2.size) (max a.align b.align), max a.align b.align⟩

/-- Layout of the emitted container struct `{ data: Union, vtable:
VtableContainer }` for variant layouts `vs` on a platform with pointer width
`pw`. -/
def containerLayout (vs : List Layout) (pw : Nat) : Layout :=
  structLayout2 (unionLayout vs) (ptrLayout pw)

/-- Stated from the spec's words, for comparison with `containerLayout`: size is
the maximal variant size rounded up to the storage alignment plus one
pointer-sized handle. -/
def specContainerSize (vs : List Layout) (pw : Nat) : Nat :=
  alignUp (maxSize vs) (maxAlign vs) + pw

/-- Stated from the spec's words, for comparison with `containerLayout`:
alignment is the maximal variant alignment. -/
def specContainerAlign (vs : List Layout) : Nat := maxAlign vs

/-- Rust alignments are powers of two. -/
def IsPow2 (n : Nat) : Prop := ∃ k, n = 2 ^ k

theorem IsPow2.pos {n : Nat} (h : IsPow2 n) : 0 < n := by
  obtain ⟨k, rfl⟩ := h
  exact Nat.pos_pow_of_pos k (by decide)

theorem IsPow2.dvd_of_le {a b : Nat} (ha : IsPow2 a) (hb : IsPow2 b) (h : a ≤ b) : a ∣ b := by
  obtain ⟨i, rfl⟩ := ha
  obtain ⟨j, rfl⟩ := hb
  exact pow_dvd_pow 2 ((Nat.pow_le_pow_iff_right (by decide)).mp h)

theorem IsPow2.max_pow2 {a b : Nat} (ha : IsPow2 a) (hb : IsPow2 b) : IsPow2 (max a b) := by
  rcases Nat.le_total a b with h | h
  · rwa [Nat.max_eq_right h]
  · rwa [Nat.max_eq_left h]

theorem maxAlign_pow2 (vs : List Layout) (h : ∀ l ∈ vs, IsPow2 l.align) :
    IsPow2 (maxAlign vs) := by
  induction vs with
  | nil => exact ⟨0, rfl⟩
  | cons l vs ih =>
    exact IsPow2.max_pow2 (h l (List.mem_cons_self l vs))
      (ih fun x hx => h x (List.mem_cons_of_mem l hx))

theorem dvd_alignUp (n a : Nat) : a ∣ alignUp n a :=
  Dvd.intro_left _ rfl

theorem alignUp_eq_of_dvd {n a : Nat} (ha : 0 < a) (h : a ∣ n) : alignUp n a = n := by
  obtain ⟨c, rfl⟩ := h
  have h1 : a * c + a - 1 = a * c + (a - 1) := by omega
  rw [alignUp, h1, Nat.mul_add_div ha, Nat.div_eq_of_lt (by omega), Nat.add_zero,
    Nat.mul_comm]

/-- C2 counterexample: for the single variant list `[u8]` (size 1, alignment 1)
on a 64-bit platform (pointer width 8), the emitted struct has size 16 and
alignment 8, while the spec's formulas give size 9 and alignment 1. The handle
field's own pointer alignment enters both the container's alignment and, through
padding, its size. -/
theorem C2_layout_counterexample :
    ¬ ((containerLayout [⟨1, 1⟩] 8).size = specContainerSize [⟨1, 1⟩] 8 ∧
       (containerLayout [⟨1, 1⟩] 8).align = specContainerAlign [⟨1, 1⟩]) := by
  decide

/-- C2 amended: for power-of-two alignments, the emitted container's alignment
is the maximum of the variants' maximal alignment and the pointer alignment of
the handle, and its size is the storage size (maximal variant size rounded to
the storage alignment) plus the pointer-sized handle, rounded up to the
container alignment. Both depend only on the maximal variant size and alignment,
so they are independent of the number of variants declared. -/
theorem C2_layout_amended (vs : List Layout) (pw : Nat)
    (hvs : ∀ l ∈ vs, IsPow2 l.align) (hpw : IsPow2 pw) :
    (containerLayout vs pw).align = max (maxAlign vs) pw ∧
    (containerLayout vs pw).size
      = alignUp (alignUp (maxSize vs) (maxAlign vs) + pw) (max (maxAlign vs) pw) ∧
    ∀ (vs' : List Layout), maxSize vs' = maxSize vs → maxAlign vs' = maxAlign vs →
      containerLayout vs' pw = containerLayout vs pw := by
  have hma : IsPow2 (maxAlign vs) := maxAlign_pow2 vs hvs
  refine ⟨rfl, ?_, ?_⟩
  · rw [containerLayout, structLayout2]
    rcases Nat.lt_or_ge (unionLayout vs).align pw with h | h
    · -- pointer field first
      simp only [unionLayout, ptrLayout] at h ⊢
      rw [if_pos h, if_pos h]
      have hdvd : maxAlign vs ∣ pw := hma.dvd_of_le hpw (Nat.le_of_lt h)
      rw [alignUp_eq_of_dvd hma.pos hdvd, Nat.add_comm]
    · -- union field first
      simp only [unionLayout, ptrLayout] at h ⊢
      rw [if_neg (Nat.not_lt.mpr h), if_neg (Nat.not_lt.mpr h)]
      have hdvd : pw ∣ alignUp (maxSize vs) (maxAlign vs) :=
        Nat.dvd_trans (hpw.dvd_of_le hma h) (dvd_alignUp _ _)
      rw [alignUp_eq_of_dvd hpw.pos hdvd]
  · intro vs' h1 h2
    simp only [containerLayout, unionLayout, h1, h2]

/-- Closed witness for the amended C2 at the repository's own test variants
(`u8`: size 1 align 1, `String`: size 24 align 8, `X`: size 0 align 4) with
pointer width 8: the container has alignment 8 and size 32. -/
theorem C2_layout_amended_witness :
    (containerLayout [⟨1, 1⟩, ⟨24, 8⟩, ⟨0, 4⟩] 8).align = 8 ∧
    (containerLayout [⟨1, 1⟩, ⟨24, 8⟩, ⟨0, 4⟩] 8).size = 32 := by
  have h := C2_layout_amended [⟨1, 1⟩, ⟨24, 8⟩, ⟨0, 4⟩] 8
    (by intro l hl; fin_cases hl; exacts [⟨0, rfl⟩, ⟨3, rfl⟩, ⟨2, rfl⟩]) ⟨3, rfl⟩
  exact ⟨by rw [h.1]; decide, by rw [h.2.1]; decide⟩

/-- The two field types of the emitted container struct. -/
inductive FieldTy where
  | unionStorage
  | nonNullHandle
  deriving DecidableEq

/-- Whether a field type forbids a bit pattern usable as an enclosing enum's
discriminant: the handle `NonNull<()>` forbids the null address; the untagged
union storage offers no such niche. -/
def hasNullNiche : FieldTy → Bool
  | FieldTy.unionStorage => false
  | FieldTy.nonNullHandle => true

/-- The fields of the emitted container struct, as emitted: the union storage
and the `VtableContainer(NonNull<()>)` handle. -/
def containerFields : List FieldTy := [FieldTy.unionStorage, FieldTy.nonNullHandle]

/-- The emitted container offers a niche to enclosing enums, through some field. -/
def containerHasNiche : Bool := containerFields.any hasNullNiche

/-- Model of `Option<T>` layout: when `T` offers a niche the discriminant is
stored in the niche and `Option<T>` has `T`'s own layout; otherwise a separate
tag is added and padded. -/
def optionLayout (niche : Bool) (l : Layout) : Layout :=
  if niche then l else ⟨alignUp (l.size + 1) l.align, l.align⟩

/-- C10. Non-null handle niche: every constructed container stores a non-null
vtable address in its handle field; `access`/`access_mut` never change the
field (and drop only reads it); the handle's `NonNull` field gives the container
a niche, so `Option<Container>` has exactly the container's own layout — in
particular the same size. -/
theorem C10_nonnull_handle_niche {I : Interface} (P : Platform I) :
    (∀ (τ : P.Ty) (v : P.Val τ), (Container.new P τ v).vtable ≠ 0) ∧
    (∀ (base : Nat) (c : Container P) (op : Op I),
      ((stepOp base c op).1).vtable = c.vtable) ∧
    containerHasNiche = true ∧
    (∀ (vs : List Layout) (pw : Nat),
      optionLayout containerHasNiche (containerLayout vs pw) = containerLayout vs pw) := by
  refine ⟨?_, ?_, rfl, fun vs pw => rfl⟩
  · intro τ v
    exact Nat.pos_iff_ne_zero.mp (P.vtable_pos τ)
  · intro base c op
    cases op with
    | access m a =>
      simp only [stepOp]
      cases Container.access base c m a <;> rfl
    | accessMut m a =>
      simp only [stepOp]
      rcases hm : Container.accessMut base c m a with _ | c'
      · rfl
      · rw [Container.accessMut, Option.map_eq_some'] at hm
        obtain ⟨dv, _, rfl⟩ := hm
        rfl

/-- One element of the `TRAIT_BOUNDS` segment of a declaration: a trait name or
a lifetime. -/
inductive TypeParamBound where
  | traitBound (name : String)
  | lifetime (name : String)
  deriving DecidableEq

/-- One declared variant type: its name, together with the Rust-level facts
about it that the emitted code's auto-trait status depends on. -/
structure VariantTy where
  name : String
  isSend : Bool
  isSync : Bool
  deriving DecidableEq

/-- One parsed `union` declaration handed to `handle_request`. Attributes,
visibility and generic parameters are carried through verbatim by the code and
are not modelled. -/
structure TraitUnionRequest where
  ident : String
  trait_ : List TypeParamBound
  variants : List VariantTy
  deriving DecidableEq

/-- The `has_lifetime` test of `handle_request`: does any bound of the
declaration carry a lifetime? -/
def has_lifetime (bs : List TypeParamBound) : Bool :=
  bs.any fun b => match b with
    | TypeParamBound.lifetime _ => true
    | TypeParamBound.traitBound _ => false

/-- The definitions emitted by one `handle_request`, structurally: the mangled
names, the variant marker trait (an `unsafe trait` whose supertraits are
exactly the declaration's public bound — no private sealing supertrait is
emitted, recorded by `variantTraitIsSealed := false`), the union fields, the
targets of the unconditional `unsafe impl Send/Sync` lines, the `dyn` bounds
used by `new`, `Drop` and the `Deref` target, and the per-variant witness
impls. -/
structure EmittedItems where
  structName : String
  variantTraitName : String
  variantTraitIsUnsafe : Bool
  variantTraitIsSealed : Bool
  variantTraitSupertraits : List TypeParamBound
  traitObjectName : String
  unionName : String
  unionFieldTypes : List String
  vtableContainerName : String
  unsafeSendImplTargets : List String
  unsafeSyncImplTargets : List String
  newDynBound : List TypeParamBound
  dropDynBound : List TypeParamBound
  derefTarget : List TypeParamBound
  variantImplTargets : List String
  deriving DecidableEq

/-- The compiler for one specification, following `handle_request` in the
source: mangle the names from the declaration's identifier, add the `'static`
lifetime to the bound when it has no lifetime, and emit the container struct,
the marker trait, the `repr(C)` trait-object struct, the union, the vtable
container with its unconditional `Send`/`Sync` impls, `new`, `to_trait_object`,
`Drop`, `Deref`/`DerefMut`, and one marker impl per declared variant. -/
def handle_request (r : TraitUnionRequest) : EmittedItems :=
  let prefixStr := "__trait_union_" ++ r.ident ++ "_"
  let variant_name := r.ident ++ "Variant"
  let union_name := prefixStr ++ "Union"
  let trait_object_name := prefixStr ++ "TraitObject"
  let vtable_container_name := prefixStr ++ "VtableContainer"
  let trait_ := if has_lifetime r.trait_ then r.trait_
    else r.trait_ ++ [TypeParamBound.lifetime "static"]
  { structName := r.ident
    variantTraitName := variant_name
    variantTraitIsUnsafe := true
    variantTraitIsSealed := false
    variantTraitSupertraits := trait_
    traitObjectName := trait_object_name
    unionName := union_name
    unionFieldTypes := r.variants.map fun v => "core::mem::ManuallyDrop<" ++ v.name ++ ">"
    vtableContainerName := vtable_container_name
    unsafeSendImplTargets := [vtable_container_name]
    unsafeSyncImplTargets := [vtable_container_name]
    newDynBound := trait_
    dropDynBound := trait_
    derefTarget := trait_
    variantImplTargets := r.variants.map VariantTy.name }

/-- C7. Implicit static-lifetime default: when the declaration's bound contains
no lifetime, `handle_request` appends the `'static` lifetime to it, and that
extended bound is the one used for the variant marker trait's supertraits, the
`Deref` target, and the `dyn` bound in `new` and `Drop`; when the bound already
contains a lifetime, it is used unchanged everywhere. -/
theorem C7_implicit_static_lifetime (r : TraitUnionRequest) :
    (has_lifetime r.trait_ = false →
      (handle_request r).variantTraitSupertraits
          = r.trait_ ++ [TypeParamBound.lifetime "static"] ∧
      (handle_request r).derefTarget = r.trait_ ++ [TypeParamBound.lifetime "static"] ∧
      (handle_request r).newDynBound = r.trait_ ++ [TypeParamBound.lifetime "static"] ∧
      (handle_request r).dropDynBound = r.trait_ ++ [TypeParamBound.lifetime "static"]) ∧
    (has_lifetime r.trait_ = true →
      (handle_request r).variantTraitSupertraits = r.trait_ ∧
      (handle_request r).derefTarget = r.trait_ ∧
      (handle_request r).newDynBound = r.trait_ ∧
      (handle_request r).dropDynBound = r.trait_) := by
  constructor <;> intro h <;> simp [handle_request, h]

/-- Closed witness for C7: a `Display`-style bound with no lifetime gets
`'static` appended in the emitted `Deref` target. -/
theorem C7_implicit_static_lifetime_witness :
    (handle_request ⟨"Container", [TypeParamBound.traitBound "Display"],
        [⟨"i32", true, true⟩]⟩).derefTarget
      = [TypeParamBound.traitBound "Display", TypeParamBound.lifetime "static"] :=
  (((C7_implicit_static_lifetime ⟨"Container", [TypeParamBound.traitBound "Display"],
      [⟨"i32", true, true⟩]⟩).1 rfl).2.1).trans rfl

/-- Whether the emitted vtable container type is `Sync`: it is the target of
one of the emitted unconditional `unsafe impl Sync` lines. -/
def vtableContainerIsSync (e : EmittedItems) : Bool :=
  e.unsafeSyncImplTargets.contains e.vtableContainerName

/-- Whether the emitted vtable container type is `Send`. -/
def vtableContainerIsSend (e : EmittedItems) : Bool :=
  e.unsafeSendImplTargets.contains e.vtableContainerName

/-- Auto-trait status of the emitted container struct, per Rust's derivation
rules: with no explicit impl for the struct itself, it is `Sync` exactly when
both its fields are — the untagged union (Sync iff every `ManuallyDrop<Vi>`,
i.e. every variant, is) and the vtable container (Sync by the emitted
unconditional `unsafe impl`). -/
def containerIsSync (r : TraitUnionRequest) : Bool :=
  (r.variants.all fun v => v.isSync) && vtableContainerIsSync (handle_request r)

/-- Auto-trait `Send` status of the emitted container struct, as
`containerIsSync`. -/
def containerIsSend (r : TraitUnionRequest) : Bool :=
  (r.variants.all fun v => v.isSend) && vtableContainerIsSend (handle_request r)

/-- C8 counterexample: for a container whose only variant is an `Rc<u8>`-like
type (neither `Send` nor `Sync`), the emitted container is not `Sync` and not
`Send`, and the emitted unconditional `unsafe impl` lines do not target the
container struct at all — so the container is not marked shareable
unconditionally from the handle alone, contrary to the claim. -/
theorem C8_unconditional_marker_counterexample :
    containerIsSync ⟨"C", [TypeParamBound.traitBound "Debug"],
        [⟨"Rc<u8>", false, false⟩]⟩ = false ∧
    containerIsSend ⟨"C", [TypeParamBound.traitBound "Debug"],
        [⟨"Rc<u8>", false, false⟩]⟩ = false ∧
    (handle_request ⟨"C", [TypeParamBound.traitBound "Debug"],
        [⟨"Rc<u8>", false, false⟩]⟩).unsafeSyncImplTargets.contains "C" = false := by
  decide

/-- C8 amended: the unconditional `unsafe impl Send`/`Sync` lines target exactly
the vtable container (handle) type, which is therefore `Send`/`Sync` for every
specification; the container struct itself receives no such impl — its
shareability is auto-derived, which additionally requires every declared
variant type to be shareable. -/
theorem C8_handle_marker_amended (r : TraitUnionRequest) :
    (handle_request r).unsafeSendImplTargets = [(handle_request r).vtableContainerName] ∧
    (handle_request r).unsafeSyncImplTargets = [(handle_request r).vtableContainerName] ∧
    vtableContainerIsSync (handle_request r) = true ∧
    vtableContainerIsSend (handle_request r) = true ∧
    containerIsSync r = (r.variants.all fun v => v.isSync) ∧
    containerIsSend r = (r.variants.all fun v => v.isSend) ∧
    (handle_request r).unsafeSyncImplTargets.contains (handle_request r).structName
      = false := by
  have hne : ((handle_request r).structName
      == (handle_request r).vtableContainerName) = false := by
    rw [beq_eq_false_iff_ne]
    intro h
    have := congrArg String.length h
    simp only [handle_request, String.length_append] at this
    have h1 : "__trait_union_".length = 14 := rfl
    have h2 : "_".length = 1 := rfl
    have h3 : "VtableContainer".length = 15 := rfl
    omega
  have hsync : vtableContainerIsSync (handle_request r) = true := by
    simp [vtableContainerIsSync, handle_request, List.contains_cons]
  have hsend : vtableContainerIsSend (handle_request r) = true := by
    simp [vtableContainerIsSend, handle_request, List.contains_cons]
  refine ⟨rfl, rfl, hsync, hsend, ?_, ?_, ?_⟩
  · rw [containerIsSync, hsync, Bool.and_true]
  · rw [containerIsSend, hsend, Bool.and_true]
  · simp only [handle_request, List.contains_cons, List.contains_nil, Bool.or_false]
    simpa [handle_request] using hne

/-- Where an impl of the per-container variant marker trait can be written. -/
inductive ImplSource where
  | emittedByMacro
  | externalUnsafeImpl
  | externalSafeImpl
  deriving DecidableEq

/-- Model of Rust's acceptance of an impl for a public trait such as the
emitted marker trait: the macro's own emitted impls are accepted; external code
may also implement a public, unsealed trait, but must write `unsafe impl` when
the trait is declared `unsafe` — a safe `impl` of an `unsafe` trait is
rejected. A sealed trait (one with a private supertrait) would reject every
external impl; the emitted marker trait has no such seal. -/
def implAccepted (isUnsafeTrait isSealed : Bool) : ImplSource → Bool
  | ImplSource.emittedByMacro => true
  | ImplSource.externalUnsafeImpl => !isSealed
  | ImplSource.externalSafeImpl => !isSealed && !isUnsafeTrait

/-- C4 counterexample: for a concrete emitted union, an `unsafe impl` written in
external user code is accepted for the variant marker trait — the trait is
public and unsealed, and `unsafe` is a programmer promise, not a fabrication
barrier — so the conformance witness is not obtainable only through the
compiler's own emission. -/
theorem C4_witness_forgeable_counterexample :
    implAccepted
      (handle_request ⟨"Container", [TypeParamBound.traitBound "Display"],
        [⟨"i32", true, true⟩]⟩).variantTraitIsUnsafe
      (handle_request ⟨"Container", [TypeParamBound.traitBound "Display"],
        [⟨"i32", true, true⟩]⟩).variantTraitIsSealed
      ImplSource.externalUnsafeImpl = true ∧
    ImplSource.externalUnsafeImpl ≠ ImplSource.emittedByMacro := by
  decide

/-- C4 amended: the emitted witness trait is `unsafe` and unsealed, so safe
external code cannot fabricate a conformance witness (a safe `impl` is
rejected), and the macro itself emits exactly one witness impl per declared
variant; external code that opts into `unsafe` can, however, still implement
the trait against its documented contract. -/
theorem C4_witness_amended (r : TraitUnionRequest) :
    (handle_request r).variantTraitIsUnsafe = true ∧
    (handle_request r).variantTraitIsSealed = false ∧
    implAccepted (handle_request r).variantTraitIsUnsafe
      (handle_request r).variantTraitIsSealed ImplSource.externalSafeImpl = false ∧
    (handle_request r).variantImplTargets = r.variants.map VariantTy.name := by
  exact ⟨rfl, rfl, rfl, rfl⟩

/-- The `TraitUnionRequests::parse` loop: parse declarations until the input
stream is exhausted, propagating the first parse failure (the `?` operator),
which aborts the whole batch. Each input element stands for the text of one
declaration, already classified as parsing to a request or failing with a
syntax error. -/
def parseRequests : List (Except String TraitUnionRequest) →
    Except String (List TraitUnionRequest)
  | [] => Except.ok []
  | x :: rest =>
    match x with
    | Except.error e => Except.error e
    | Except.ok r =>
      match parseRequests rest with
      | Except.error e => Except.error e
      | Except.ok rs => Except.ok (r :: rs)

/-- The `trait_union` proc-macro entry point: parse the whole batch with
`parseRequests`, then emit every request's definitions in order; a parse error
anywhere becomes a `compile_error!` expansion carrying no emitted definitions. -/
def trait_union (batch : List (Except String TraitUnionRequest)) :
    Except String (List EmittedItems) :=
  match parseRequests batch with
  | Except.error e => Except.error e
  | Except.ok rs => Except.ok (rs.map handle_request)

theorem parseRequests_map_ok (rs : List TraitUnionRequest) :
    parseRequests (rs.map Except.ok) = Except.ok rs := by
  induction rs with
  | nil => rfl
  | cons r rs ih =>
    simp only [List.map_cons, parseRequests, ih]

/-- C9 counterexample: a batch consisting of one well-formed specification
followed by one that fails to parse expands to the parse error only — no
definitions at all are emitted for the well-formed specification, so the
failure of one specification does block the others. -/
theorem C9_batch_counterexample :
    trait_union [Except.ok ⟨"Container", [TypeParamBound.traitBound "Display"],
        [⟨"i32", true, true⟩]⟩, Except.error "expected token"]
      = Except.error "expected token" := by
  rfl

/-- C9 amended: emission is per-specification and total — when every
specification in a batch parses, each one's definitions are produced by
`handle_request` from that specification alone, at its position in the batch,
unaffected by the other specifications; a parse failure anywhere in the batch,
however, aborts the whole batch with no definitions emitted. -/
theorem C9_batch_amended (rs1 rs2 : List TraitUnionRequest) (r : TraitUnionRequest) :
    trait_union ((rs1 ++ r :: rs2).map Except.ok)
      = Except.ok ((rs1 ++ r :: rs2).map handle_request) ∧
    ((rs1 ++ r :: rs2).map handle_request)[rs1.length]? = some (handle_request r) := by
  constructor
  · rw [trait_union, parseRequests_map_ok]
  · rw [List.map_append, List.map_cons,
      List.getElem?_append_right (by simp)]
    simp

end TraitUnion
